import Mathlib

/-!
Verification of the chat-client session logic of the AI-auto-chat-audio
repository: a shallow embedding of the transcript model, the send
orchestration in `App.tsx` (`handleSend`, `handleExportChat`), and the
preference store in `hooks/useSettings.ts`, together with proofs of the
documented invariants and behaviours.
-/

namespace ChatApp

/-- The `ConversationState` enum from `types.ts`. -/
inductive ConversationState where
  | IDLE
  | CONNECTING
  | LISTENING
  | PROCESSING
  | SPEAKING
  | TYPING
  | ERROR
deriving DecidableEq

/-- The `GroundingSource` record from `types.ts`: a cited web source `{uri, title}`. -/
structure GroundingSource where
  uri : String
  title : String
deriving DecidableEq

/-- The `UploadedFile` record from `types.ts`: only the name is kept in the transcript. -/
structure UploadedFile where
  name : String
deriving DecidableEq

/-- Message origin: the `source: 'user' | 'gemini'` union of `TranscriptEntry`. -/
inductive Source where
  | user
  | gemini
deriving DecidableEq

/-- The `TranscriptEntry` record from `types.ts`. Optional fields become `Option`;
the optional boolean `isTyping` is a `Bool` defaulting to `false`
(absent and `false` are indistinguishable to every consumer). -/
structure TranscriptEntry where
  source : Source
  text : String
  isTyping : Bool := false
  imageUrl : Option String := none
  sources : Option (List GroundingSource) := none
  files : Option (List UploadedFile) := none
deriving DecidableEq

/-- The `ChatMode` union from `types.ts`. -/
inductive ChatMode where
  | default
  | search
  | image
  | reasoning
deriving DecidableEq

/-- The `Theme` union from `types.ts`. -/
inductive Theme where
  | light
  | dark
deriving DecidableEq

/-- The `Voice` union from `types.ts`. -/
inductive Voice where
  | Zephyr
  | Puck
  | Charon
  | Kore
  | Fenrir
deriving DecidableEq

/-- The `TextModel` union from `types.ts`. -/
inductive TextModel where
  | gemini_2_5_flash
  | gemini_2_5_pro
deriving DecidableEq

/-- The model-id string each `TextModel` stands for. -/
def TextModel.id : TextModel → String
  | .gemini_2_5_flash => "gemini-2.5-flash"
  | .gemini_2_5_pro => "gemini-2.5-pro"

/-- The `Settings` record from `types.ts`. -/
structure Settings where
  systemPrompt : String
  voice : Voice
  textModel : TextModel
  theme : Theme
  sendOnEnter : Bool
deriving DecidableEq

/-- The `defaultSettings` constant from `hooks/useSettings.ts`. -/
def defaultSettings : Settings :=
  { systemPrompt := "Bạn là một trợ lý AI thân thiện và hữu ích. Hãy giữ cho câu trả lời của bạn ngắn gọn và mang tính trò chuyện."
    voice := .Zephyr
    textModel := .gemini_2_5_flash
    theme := .dark
    sendOnEnter := true }

/-- A browser `File` as `handleSend` consumes it: its name, its MIME type,
and the two readings the code can take of it (`readFileAsText` yields
`content`, `fileToBase64` yields `base64` with the file's own MIME type). -/
structure FileData where
  name : String
  type : String
  content : String
  base64 : String
deriving DecidableEq

/-- An inline binary part `{inlineData: {mimeType, data}}` of a request. -/
structure InlinePart where
  mimeType : String
  data : String
deriving DecidableEq

/-- The `contents` value passed to `ai.models.generateContent`: either a
plain string, or `{parts: [{text}, ...imageParts]}`. -/
inductive RequestContents where
  | plain (text : String)
  | withParts (text : String) (images : List InlinePart)
deriving DecidableEq

/-- One remote call as `handleSend` issues it: model id, contents, and the
per-mode configuration (search tool, system instruction, IMAGE modality). -/
structure ApiRequest where
  model : String
  contents : RequestContents
  useSearchTool : Bool := false
  systemInstruction : Option String := none
  imageOnlyModality : Bool := false
deriving DecidableEq

/-- The slice of a `generateContent` response the code reads: `response.text`,
the `groundingChunks` optional chain (each chunk's optional `web` field), and
the first `inlineData` image part if any. -/
structure GenResponse where
  text : String
  groundingChunks : Option (List (Option GroundingSource)) := none
  firstImagePart : Option InlinePart := none
deriving DecidableEq

/-- Outcome of the awaited remote call: the parsed response, or the thrown
error's message string. -/
inductive ApiOutcome where
  | success (r : GenResponse)
  | failure (msg : String)
deriving DecidableEq

/-- The per-session state `App.tsx` holds in React state hooks. -/
structure AppState where
  transcript : List TranscriptEntry
  conversationState : ConversationState
  chatMode : ChatMode
  inputText : String
  uploadedFiles : List FileData
  isKeySelected : Bool
deriving DecidableEq

/-- The initial session state: empty transcript, `IDLE`, default mode,
empty composer, key selected after the startup check. -/
def initState : AppState :=
  { transcript := []
    conversationState := .IDLE
    chatMode := .default
    inputText := ""
    uploadedFiles := []
    isKeySelected := true }

/-- The `SUPPORTED_IMAGE_MIMES` allowlist from `handleSend`. -/
def SUPPORTED_IMAGE_MIMES : List String :=
  ["image/png", "image/jpeg", "image/webp", "image/heic", "image/heif"]

/-- Whether `pat` occurs at the start of `l` (character lists). -/
def listStarts : List Char → List Char → Bool
  | [], _ => true
  | _ :: _, [] => false
  | p :: ps, c :: cs => p == c && listStarts ps cs

/-- Whether `pat` occurs anywhere in `l` (character lists). -/
def listOccurs (pat : List Char) : List Char → Bool
  | [] => listStarts pat []
  | c :: cs => listStarts pat (c :: cs) || listOccurs pat cs

/-- JavaScript `String.prototype.includes`. -/
def strIncludes (s pat : String) : Bool :=
  listOccurs pat.data s.data

/-- JavaScript `String.prototype.startsWith`. -/
def strStarts (s pat : String) : Bool :=
  listStarts pat.data s.data

/-- JavaScript `String.prototype.trim`: strip whitespace from both ends. -/
def jsTrim (s : String) : String :=
  ⟨((s.data.dropWhile Char.isWhitespace).reverse.dropWhile
      Char.isWhitespace).reverse⟩

/-- The delimited block `handleSend` unshifts for a `text/*` file:
`--- START OF FILE: name ---` newline, the decoded content, newline,
`--- END OF FILE: name ---`, then a blank line. -/
def mkTextFileBlock (name content : String) : String :=
  "--- START OF FILE: " ++ name ++ " ---\n" ++ content ++
    "\n--- END OF FILE: " ++ name ++ " ---\n\n"

/-- One step of the file-classification loop in `handleSend`: an accumulator
of (textParts, imageParts, unsupportedFiles). Recognized image types push an
inline part, `text/*` files unshift their delimited block onto textParts, and
every other type pushes the file's name onto unsupportedFiles. -/
def classifyStep (acc : List String × List InlinePart × List String)
    (f : FileData) : List String × List InlinePart × List String :=
  if f.type ∈ SUPPORTED_IMAGE_MIMES then
    (acc.1, acc.2.1 ++ [⟨f.type, f.base64⟩], acc.2.2)
  else if strStarts f.type "text/" then
    (mkTextFileBlock f.name f.content :: acc.1, acc.2.1, acc.2.2)
  else
    (acc.1, acc.2.1, acc.2.2 ++ [f.name])

/-- The whole classification loop: `textParts` starts as `[inputText]`. -/
def classifyFiles (input : String) (files : List FileData) :
    List String × List InlinePart × List String :=
  files.foldl classifyStep ([input], [], [])

/-- The finalized user entry appended by `handleSend`: snapshot text plus
file-name metadata only. -/
def userEntryOf (s : AppState) : TranscriptEntry :=
  { source := .user, text := s.inputText
    files := some (s.uploadedFiles.map fun f => ⟨f.name⟩) }

/-- The transient placeholder entry appended by `handleSend`. -/
def typingEntry : TranscriptEntry :=
  { source := .gemini, text := "", isTyping := true }

/-- The localized error entry for unsupported file types. -/
def unsupportedErrorEntry (names : List String) : TranscriptEntry :=
  { source := .gemini
    text := "Lỗi: Loại tệp không được hỗ trợ cho: " ++
      String.intercalate ", " names ++
      ". Chỉ hỗ trợ các tệp hình ảnh và văn bản." }

/-- The image-mode progress entry placed before the image call. -/
def imageProgressEntry (input : String) : TranscriptEntry :=
  { source := .gemini, text := "Đang tạo ảnh cho: \"" ++ input ++ "\"..." }

/-- The update `prev.slice(0, -1)` followed by appending `e`: replace the
last entry. -/
def replaceLast (t : List TranscriptEntry) (e : TranscriptEntry) :
    List TranscriptEntry :=
  t.dropLast ++ [e]

/-- The request `handleSend` dispatches for the active mode, given the
snapshot input text, the joined combined text and the collected image parts. -/
def buildRequest (settings : Settings) (mode : ChatMode) (input : String)
    (combined : String) (images : List InlinePart) : ApiRequest :=
  let contents : RequestContents :=
    if images ≠ [] then .withParts combined images else .plain combined
  match mode with
  | .search =>
      { model := "gemini-2.5-flash", contents := contents, useSearchTool := true }
  | .image =>
      { model := "gemini-2.5-flash-image"
        contents := .withParts input []
        imageOnlyModality := true }
  | .reasoning =>
      { model := "gemini-2.5-pro", contents := contents }
  | .default =>
      { model := if images ≠ [] then "gemini-2.5-flash" else settings.textModel.id
        contents := contents
        systemInstruction := some settings.systemPrompt }

/-- The synchronous part of `handleSend`, up to dispatching the remote call:
guard, append user entry, clear the composer, enter `PROCESSING`, append
the placeholder, classify files, abort on unsupported files, build the
request (image mode also swaps the placeholder for a progress entry before
its call). Returns the new state and the dispatched request, if any. -/
def sendStart (settings : Settings) (s : AppState) :
    AppState × Option ApiRequest :=
  if (jsTrim s.inputText = "" ∧ s.uploadedFiles = []) ∨
      s.conversationState = .PROCESSING then
    (s, none)
  else
    let t2 := s.transcript ++ [userEntryOf s] ++ [typingEntry]
    let parts := classifyFiles s.inputText s.uploadedFiles
    if parts.2.2 ≠ [] then
      ({ s with
          transcript := replaceLast t2 (unsupportedErrorEntry parts.2.2)
          conversationState := .IDLE
          inputText := ""
          uploadedFiles := [] }, none)
    else
      let req := buildRequest settings s.chatMode s.inputText
        (String.join parts.1) parts.2.1
      match s.chatMode with
      | .image =>
          ({ s with
              transcript := replaceLast t2 (imageProgressEntry s.inputText)
              conversationState := .PROCESSING
              inputText := ""
              uploadedFiles := [] }, some req)
      | _ =>
          ({ s with
              transcript := t2
              conversationState := .PROCESSING
              inputText := ""
              uploadedFiles := [] }, some req)

/-- Sources extracted in search mode: the optional chain down to
`groundingChunks`, each chunk's `web` field, undefined ones filtered out,
defaulting to `[]`. -/
def extractSources (r : GenResponse) : List GroundingSource :=
  (r.groundingChunks.getD []).filterMap id

/-- Whether the caught error message signals an invalid/expired credential. -/
def isKeyErrorMessage (msg : String) : Bool :=
  strIncludes msg "API key not valid" ||
    strIncludes msg "Requested entity was not found"

/-- The entry that replaces the placeholder when the call throws. -/
def failureEntry (msg : String) : TranscriptEntry :=
  if isKeyErrorMessage msg then
    { source := .gemini, text := "Lỗi: Khóa API không hợp lệ. Vui lòng chọn lại khóa." }
  else
    { source := .gemini, text := "Lỗi: " ++ msg }

/-- The finalized assistant entry built from a successful response. -/
def successEntry (mode : ChatMode) (r : GenResponse) : TranscriptEntry :=
  match mode with
  | .search => { source := .gemini, text := r.text, sources := some (extractSources r) }
  | .image =>
      match r.firstImagePart with
      | some p =>
          { source := .gemini, text := ""
            imageUrl := some ("data:" ++ p.mimeType ++ ";base64," ++ p.data) }
      | none => { source := .gemini, text := "Không thể tạo ảnh. Vui lòng thử lại." }
  | _ => { source := .gemini, text := r.text }

/-- The continuation of `handleSend` once the awaited call resolves: replace
the tail entry with the finalized or error entry, clear the key flag on a
credential error, and return to `IDLE` via the `finally` block. -/
def sendComplete (s : AppState) (o : ApiOutcome) : AppState :=
  match o with
  | .success r =>
      { s with
          transcript := replaceLast s.transcript (successEntry s.chatMode r)
          conversationState := .IDLE }
  | .failure msg =>
      if isKeyErrorMessage msg then
        { s with
            transcript := replaceLast s.transcript (failureEntry msg)
            isKeySelected := false
            conversationState := .IDLE }
      else
        { s with
            transcript := replaceLast s.transcript (failureEntry msg)
            conversationState := .IDLE }

/-- How a message source renders in the export: the raw union value. -/
def sourceName : Source → String
  | .user => "user"
  | .gemini => "gemini"

/-- One entry's block in `handleExportChat`: `[source]` on its own line, a
`Files:` line when file metadata is present and non-empty, then the text. -/
def exportEntry (e : TranscriptEntry) : String :=
  "[" ++ sourceName e.source ++ "]\n" ++
    (match e.files with
      | some fs =>
          if fs.length > 0 then
            "Files: " ++ String.intercalate ", " (fs.map (·.name)) ++ "\n"
          else ""
      | none => "") ++ e.text

/-- The whole export of `handleExportChat`: blocks joined by `\n\n`. -/
def exportChat (t : List TranscriptEntry) : String :=
  String.intercalate "\n\n" (t.map exportEntry)

/-- A stored settings object, as `JSON.parse` of the persisted blob or as
the argument of `updateSettings`: any subset of the fields may be present. -/
structure SettingsPatch where
  systemPrompt : Option String := none
  voice : Option Voice := none
  textModel : Option TextModel := none
  theme : Option Theme := none
  sendOnEnter : Option Bool := none
deriving DecidableEq

/-- The spread-merge `{...base, ...p}`: fields present in `p` win. -/
def applyPatch (base : Settings) (p : SettingsPatch) : Settings :=
  { systemPrompt := p.systemPrompt.getD base.systemPrompt
    voice := p.voice.getD base.voice
    textModel := p.textModel.getD base.textModel
    theme := p.theme.getD base.theme
    sendOnEnter := p.sendOnEnter.getD base.sendOnEnter }

/-- The initial load in `useSettings`: merge stored settings over defaults,
falling back to the defaults when nothing is stored or parsing failed. -/
def loadSettings (stored : Option SettingsPatch) : Settings :=
  match stored with
  | some p => applyPatch defaultSettings p
  | none => defaultSettings

/-- The `updateSettings` callback: merge the update into the previous
settings. -/
def updateSettings (prev : Settings) (p : SettingsPatch) : Settings :=
  applyPatch prev p

/-- What the persistence effect writes: the full current settings, every
field present (`JSON.stringify` of a complete `Settings`). -/
def storedOf (s : Settings) : SettingsPatch :=
  { systemPrompt := some s.systemPrompt
    voice := some s.voice
    textModel := some s.textModel
    theme := some s.theme
    sendOnEnter := some s.sendOnEnter }

/-- Typing placeholders in a transcript. -/
def typingCount (t : List TranscriptEntry) : Nat :=
  (t.filter (·.isTyping)).length

/-- The documented transcript invariant: no placeholder anywhere but the
tail, and a placeholder is present only while a request is in flight. -/
def SessionInv (s : AppState) : Prop :=
  (∀ e ∈ s.transcript.dropLast, e.isTyping = false) ∧
    ((∃ e ∈ s.transcript, e.isTyping = true) →
      s.conversationState = .PROCESSING)

/-- The states a session can reach: the initial state, composer and mode
edits, clearing history, and the send flow split at its suspension point
(a send that makes no call completes synchronously; one that does leaves an
in-flight state that `sendComplete` later resolves with some outcome). -/
inductive Reachable : AppState → Prop where
  | init : Reachable initState
  | clearHistory {s : AppState} : Reachable s →
      Reachable { s with transcript := [] }
  | setInput {s : AppState} (t : String) : Reachable s →
      Reachable { s with inputText := t }
  | addFiles {s : AppState} (fs : List FileData) : Reachable s →
      Reachable { s with uploadedFiles := s.uploadedFiles ++ fs }
  | removeFile {s : AppState} (f : FileData) : Reachable s →
      Reachable { s with uploadedFiles := s.uploadedFiles.filter (· ≠ f) }
  | setMode {s : AppState} (m : ChatMode) : Reachable s →
      Reachable { s with chatMode := m }
  | sendNoCall {s s' : AppState} (settings : Settings) : Reachable s →
      sendStart settings s = (s', none) → Reachable s'
  | sendInFlight {s s' : AppState} (settings : Settings) (req : ApiRequest) :
      Reachable s → sendStart settings s = (s', some req) → Reachable s'
  | sendFinish {s : AppState} (o : ApiOutcome) : Reachable s →
      s.conversationState = .PROCESSING → Reachable (sendComplete s o)

/-- A file that is neither a recognized image type nor a `text/*` type. -/
def isUnsupportedFile (f : FileData) : Bool :=
  !(decide (f.type ∈ SUPPORTED_IMAGE_MIMES)) && !(strStarts f.type "text/")

/-- Names of the unsupported files, in upload order. -/
def unsupportedNames (files : List FileData) : List String :=
  (files.filter isUnsupportedFile).map (·.name)

/-- The unsupported-files component of the classification loop collects
exactly the names of the unsupported files, after the accumulator's. -/
theorem foldl_classify_unsupported (files : List FileData) :
    ∀ acc, (files.foldl classifyStep acc).2.2 =
      acc.2.2 ++ unsupportedNames files := by
  induction files with
  | nil => intro acc; simp [unsupportedNames]
  | cons f fs ih =>
      intro acc
      rw [List.foldl_cons, ih]
      by_cases h1 : f.type ∈ SUPPORTED_IMAGE_MIMES
      · simp [classifyStep, unsupportedNames, isUnsupportedFile, h1]
      · by_cases h2 : strStarts f.type "text/" = true
        · simp [classifyStep, unsupportedNames, isUnsupportedFile, h1, h2]
        · simp [classifyStep, unsupportedNames, isUnsupportedFile, h1, h2]

/-- The classification loop's unsupported component, from the start. -/
theorem classifyFiles_unsupported (input : String) (files : List FileData) :
    (classifyFiles input files).2.2 = unsupportedNames files := by
  simpa using foldl_classify_unsupported files ([input], [], [])

/-- C4. Sending with empty input text and no attached files is a no-op:
the state is returned unchanged and no remote request is dispatched. -/
theorem send_empty_input_noop (settings : Settings) (s : AppState)
    (hin : s.inputText = "") (hfiles : s.uploadedFiles = []) :
    sendStart settings s = (s, none) := by
  unfold sendStart
  rw [if_pos (Or.inl ⟨by rw [hin]; rfl, hfiles⟩)]

/-- Witness for C4 at the initial state. -/
theorem send_empty_input_noop_witness :
    sendStart defaultSettings initState = (initState, none) :=
  send_empty_input_noop defaultSettings initState rfl rfl

/-- C2. While `PROCESSING`, a send is a no-op (state unchanged, no request
dispatched), and every send that does dispatch a request exits back to
`IDLE` on any outcome, success or failure. -/
theorem send_processing_noop_and_idle_exit :
    (∀ (settings : Settings) (s : AppState),
        s.conversationState = .PROCESSING → sendStart settings s = (s, none)) ∧
    (∀ (settings : Settings) (s s' : AppState) (req : ApiRequest)
        (o : ApiOutcome), sendStart settings s = (s', some req) →
        (sendComplete s' o).conversationState = .IDLE) := by
  constructor
  · intro settings s h
    unfold sendStart
    rw [if_pos (Or.inr h)]
  · intro settings s s' req o _
    cases o with
    | success r => rfl
    | failure msg =>
        by_cases h : isKeyErrorMessage msg <;> simp [sendComplete, h]

/-- Witness for C2: a concrete `PROCESSING` state rejects a send, and a
concrete dispatched send finishes in `IDLE` after a failure. -/
theorem send_processing_noop_and_idle_exit_witness :
    sendStart defaultSettings { initState with conversationState := .PROCESSING }
        = ({ initState with conversationState := .PROCESSING }, none) ∧
    (sendComplete
        { transcript := [{ source := .user, text := "hi", files := some [] },
            typingEntry]
          conversationState := .PROCESSING
          chatMode := .reasoning
          inputText := ""
          uploadedFiles := []
          isKeySelected := true }
        (.failure "boom")).conversationState = .IDLE :=
  ⟨send_processing_noop_and_idle_exit.1 defaultSettings
      { initState with conversationState := .PROCESSING } rfl,
    send_processing_noop_and_idle_exit.2 defaultSettings
      { initState with inputText := "hi", chatMode := .reasoning }
      { transcript := [{ source := .user, text := "hi", files := some [] },
          typingEntry]
        conversationState := .PROCESSING
        chatMode := .reasoning
        inputText := ""
        uploadedFiles := []
        isKeySelected := true }
      { model := "gemini-2.5-pro", contents := .plain "hi" }
      (.failure "boom") (by decide)⟩

/-- C5. When the remote call fails, the tail placeholder is replaced by the
localized error entry, the session returns to `IDLE`, and the key-selected
flag is cleared exactly when the message signals an invalid credential,
staying untouched on every other failure. -/
theorem send_failure_entry_and_key_flag (s : AppState) (msg : String) :
    (sendComplete s (.failure msg)).transcript
        = replaceLast s.transcript (failureEntry msg) ∧
    (sendComplete s (.failure msg)).conversationState = .IDLE ∧
    (sendComplete s (.failure msg)).isKeySelected
        = (if isKeyErrorMessage msg then false else s.isKeySelected) := by
  by_cases h : isKeyErrorMessage msg <;> simp [sendComplete, h]

/-- C7. In search mode, the finalized entry carries exactly the populated
citations of the response's grounding chunks, in original order, every
undefined one filtered out. -/
theorem search_sources_filtered (s : AppState) (r : GenResponse)
    (chunks : List (Option GroundingSource))
    (hmode : s.chatMode = .search) (hc : r.groundingChunks = some chunks) :
    (sendComplete s (.success r)).transcript
        = replaceLast s.transcript
            { source := .gemini, text := r.text
              sources := some (chunks.filterMap id) } := by
  simp [sendComplete, successEntry, hmode, extractSources, hc]

/-- Witness for C7: one undefined and one populated chunk yield a sources
array with only the populated citation. -/
theorem search_sources_filtered_witness :
    (sendComplete
        { transcript := [typingEntry]
          conversationState := .PROCESSING
          chatMode := .search
          inputText := ""
          uploadedFiles := []
          isKeySelected := true }
        (.success
          { text := "hello"
            groundingChunks := some [none, some ⟨"https://x", "X"⟩] })).transcript
      = [{ source := .gemini, text := "hello"
           sources := some [⟨"https://x", "X"⟩] }] := by
  have h := search_sources_filtered
    { transcript := [typingEntry]
      conversationState := .PROCESSING
      chatMode := .search
      inputText := ""
      uploadedFiles := []
      isKeySelected := true }
    { text := "hello", groundingChunks := some [none, some ⟨"https://x", "X"⟩] }
    [none, some ⟨"https://x", "X"⟩] rfl rfl
  rw [h]
  rfl

/-- C8. Updating the theme to light and then reloading from the persisted
blob yields the light theme with every other field unchanged. -/
theorem settings_roundtrip (s : Settings) :
    loadSettings (some (storedOf (updateSettings s { theme := some .light })))
        = updateSettings s { theme := some .light } ∧
    (updateSettings s { theme := some .light }).theme = .light ∧
    (updateSettings s { theme := some .light }).systemPrompt = s.systemPrompt ∧
    (updateSettings s { theme := some .light }).voice = s.voice ∧
    (updateSettings s { theme := some .light }).textModel = s.textModel ∧
    (updateSettings s { theme := some .light }).sendOnEnter = s.sendOnEnter := by
  simp [loadSettings, storedOf, updateSettings, applyPatch]

/-- C9. The export is one block per entry in transcript order, blocks joined
by a blank line, each block opening with the bracketed source on its own
line, then an optional `Files:` line, then the text; in particular the
two-entry example exports as exactly two such blocks. -/
theorem export_chat_blocks :
    (∀ e1 e2 : TranscriptEntry,
        exportChat [e1, e2] = exportEntry e1 ++ "\n\n" ++ exportEntry e2) ∧
    (∀ e : TranscriptEntry, e.files = none →
        exportEntry e = "[" ++ sourceName e.source ++ "]\n" ++ e.text) ∧
    (∀ (src : Source) (txt : String) (fs : List UploadedFile), fs ≠ [] →
        exportEntry { source := src, text := txt, files := some fs }
          = "[" ++ sourceName src ++ "]\n" ++ "Files: " ++
              String.intercalate ", " (fs.map (·.name)) ++ "\n" ++ txt) ∧
    exportChat [{ source := .user, text := "hi" },
        { source := .gemini, text := "hello" }]
      = "[user]\nhi\n\n[gemini]\nhello" := by
  refine ⟨fun e1 e2 => rfl, fun e h => ?_, fun src txt fs h => ?_, by decide⟩
  · simp [exportEntry, h]
  · have hlen : 0 < fs.length := List.length_pos.mpr h
    simp only [exportEntry, hlen, if_pos]
    apply String.ext
    simp [String.data_append]

/-- Witness for C9: a concrete entry with an attached-file name. -/
theorem export_chat_blocks_witness :
    exportEntry { source := .user, text := "ok", files := some [⟨"a.txt"⟩] }
        = "[user]\nFiles: a.txt\nok" := by
  have h := export_chat_blocks.2.2.1 Source.user "ok" [⟨"a.txt"⟩] (by decide)
  rw [h]
  rfl

/-- No unsupported names means every file is a recognized image or text. -/
theorem unsupportedNames_eq_nil_iff {files : List FileData} :
    unsupportedNames files = [] ↔
      ∀ f ∈ files, isUnsupportedFile f = false := by
  simp [unsupportedNames, List.filter_eq_nil_iff]

/-- A send whose files include an unsupported one ends, synchronously and
with no request, in the aborted state. -/
theorem sendStart_unsupported_eq (settings : Settings) (s : AppState)
    (hproc : s.conversationState ≠ .PROCESSING)
    (hne : s.uploadedFiles ≠ [])
    (hbad : unsupportedNames s.uploadedFiles ≠ []) :
    sendStart settings s =
      ({ s with
          transcript := s.transcript ++
            [userEntryOf s,
              unsupportedErrorEntry (unsupportedNames s.uploadedFiles)]
          conversationState := .IDLE
          inputText := ""
          uploadedFiles := [] }, none) := by
  have hg : ¬((jsTrim s.inputText = "" ∧ s.uploadedFiles = []) ∨
      s.conversationState = .PROCESSING) := by
    rintro (⟨-, h⟩ | h)
    · exact hne h
    · exact hproc h
  simp [sendStart, hg, classifyFiles_unsupported, hbad, replaceLast]

/-- C3. A send carrying at least one file that is neither in the image
allowlist nor of a `text/*` type aborts with no remote request: the
transcript gains the user entry plus exactly one error entry, and the state
resets to `IDLE` with the composer cleared. -/
theorem send_unsupported_aborts (settings : Settings) (s : AppState)
    (hproc : s.conversationState ≠ .PROCESSING)
    (hbad : ∃ f ∈ s.uploadedFiles, isUnsupportedFile f = true) :
    sendStart settings s =
      ({ s with
          transcript := s.transcript ++
            [userEntryOf s,
              unsupportedErrorEntry (unsupportedNames s.uploadedFiles)]
          conversationState := .IDLE
          inputText := ""
          uploadedFiles := [] }, none) := by
  obtain ⟨f, hf, hfu⟩ := hbad
  have hne : s.uploadedFiles ≠ [] := by
    intro h
    rw [h] at hf
    simp at hf
  have hnames : unsupportedNames s.uploadedFiles ≠ [] := by
    intro h
    have := unsupportedNames_eq_nil_iff.mp h f hf
    simp [this] at hfu
  exact sendStart_unsupported_eq settings s hproc hne hnames

/-- Witness for C3: a zip attachment aborts a concrete send. -/
theorem send_unsupported_aborts_witness :
    sendStart defaultSettings
        { transcript := []
          conversationState := .IDLE
          chatMode := .default
          inputText := "hi"
          uploadedFiles := [⟨"a.bin", "application/zip", "", "QUJD"⟩]
          isKeySelected := true }
      = ({ transcript :=
             [{ source := .user, text := "hi", files := some [⟨"a.bin"⟩] },
               { source := .gemini,
                 text := "Lỗi: Loại tệp không được hỗ trợ cho: a.bin. Chỉ hỗ trợ các tệp hình ảnh và văn bản." }]
           conversationState := .IDLE
           chatMode := .default
           inputText := ""
           uploadedFiles := []
           isKeySelected := true }, none) := by
  have h := send_unsupported_aborts defaultSettings
    { transcript := []
      conversationState := .IDLE
      chatMode := .default
      inputText := "hi"
      uploadedFiles := [⟨"a.bin", "application/zip", "", "QUJD"⟩]
      isKeySelected := true }
    (by decide) ⟨⟨"a.bin", "application/zip", "", "QUJD"⟩, by decide, by decide⟩
  rw [h]
  decide

/-- The text component of a request's contents. -/
def RequestContents.text : RequestContents → String
  | .plain t => t
  | .withParts t _ => t

/-- A file the classification loop treats as text: not a recognized image
type, with a `text/*` MIME type. -/
def isTextFile (f : FileData) : Bool :=
  !(decide (f.type ∈ SUPPORTED_IMAGE_MIMES)) && strStarts f.type "text/"

/-- The delimited blocks of the text-type files, in upload order. -/
def textBlocksOf (files : List FileData) : List String :=
  (files.filter isTextFile).map fun f => mkTextFileBlock f.name f.content

/-- Folding append from any seed prepends the seed to the join. -/
theorem foldl_append_eq (l : List String) :
    ∀ x : String, List.foldl (fun r s => r ++ s) x l = x ++ String.join l := by
  induction l with
  | nil => intro x; exact (String.append_empty x).symm
  | cons a t ih =>
      intro x
      rw [List.foldl_cons, ih (x ++ a),
        show String.join (a :: t) = a ++ String.join t from ih a,
        String.append_assoc]

/-- Joining concatenated lists concatenates the joins. -/
theorem string_join_append (l1 l2 : List String) :
    String.join (l1 ++ l2) = String.join l1 ++ String.join l2 := by
  show List.foldl (fun r s => r ++ s) "" (l1 ++ l2) = _
  rw [List.foldl_append]
  exact foldl_append_eq l2 (String.join l1)

/-- The textParts component of the classification loop: the text-file
blocks, most recently classified first, before the accumulator's parts. -/
theorem foldl_classify_textParts (files : List FileData) :
    ∀ acc, (files.foldl classifyStep acc).1
      = (textBlocksOf files).reverse ++ acc.1 := by
  induction files with
  | nil => intro acc; simp [textBlocksOf]
  | cons f fs ih =>
      intro acc
      rw [List.foldl_cons, ih]
      by_cases h1 : f.type ∈ SUPPORTED_IMAGE_MIMES
      · simp [classifyStep, textBlocksOf, isTextFile, h1]
      · by_cases h2 : strStarts f.type "text/" = true
        · simp [classifyStep, textBlocksOf, isTextFile, h1, h2]
        · simp [classifyStep, textBlocksOf, isTextFile, h1, h2]

/-- The whole classification loop's textParts, from the start value. -/
theorem classifyFiles_textParts (input : String) (files : List FileData) :
    (classifyFiles input files).1
      = (textBlocksOf files).reverse ++ [input] :=
  foldl_classify_textParts files ([input], [], [])

/-- Outside image mode, the request's text is the combined text. -/
theorem buildRequest_contents_text (settings : Settings) (mode : ChatMode)
    (input combined : String) (images : List InlinePart)
    (hmode : mode ≠ .image) :
    (buildRequest settings mode input combined images).contents.text
      = combined := by
  cases mode with
  | image => exact absurd rfl hmode
  | search =>
      by_cases h : images ≠ [] <;>
        simp [buildRequest, RequestContents.text, h]
  | reasoning =>
      by_cases h : images ≠ [] <;>
        simp [buildRequest, RequestContents.text, h]
  | default =>
      by_cases h : images ≠ [] <;>
        simp [buildRequest, RequestContents.text, h]

/-- A recognized image MIME type never starts with the text marker. -/
theorem image_mime_not_text {t : String} (ht : strStarts t "text/" = true) :
    t ∉ SUPPORTED_IMAGE_MIMES := by
  intro hmem
  simp [SUPPORTED_IMAGE_MIMES] at hmem
  rcases hmem with h | h | h | h | h <;> rw [h] at ht <;> exact absurd ht (by decide)

/-- Modelled from the spec for the C6 comparison: the delimited block
exactly as the claim words it, with a bare final delimiter that does not
carry the file name. -/
def specTextFileBlock (name content : String) : String :=
  "--- START OF FILE: " ++ name ++ " ---\n" ++ content ++
    "\n--- END OF FILE ---\n\n"

/-- Counterexample for C6: for a concrete send with one text file, the
dispatched payload carries the code's block, which differs from the
claimed form: neither the claimed block nor even its bare closing
delimiter `--- END OF FILE ---` occurs anywhere in the payload. -/
theorem text_file_block_counterexample :
    (sendStart defaultSettings
        { transcript := []
          conversationState := .IDLE
          chatMode := .reasoning
          inputText := "hi"
          uploadedFiles := [⟨"a.txt", "text/plain", "hello", ""⟩]
          isKeySelected := true }).2
      = some { model := "gemini-2.5-pro"
               contents := .plain "--- START OF FILE: a.txt ---\nhello\n--- END OF FILE: a.txt ---\n\nhi" } ∧
    strIncludes "--- START OF FILE: a.txt ---\nhello\n--- END OF FILE: a.txt ---\n\nhi"
        (specTextFileBlock "a.txt" "hello") = false ∧
    strIncludes "--- START OF FILE: a.txt ---\nhello\n--- END OF FILE: a.txt ---\n\nhi"
        "--- END OF FILE ---" = false :=
  ⟨by decide, by decide, by decide⟩

/-- C6 (amended). For every send that dispatches a request in a non-image
mode and carries an attached `text/*` file, the request payload is the
joined delimited blocks of the text files followed by the typed input
text, the file's own block — `--- START OF FILE: name ---`, the decoded
content, `--- END OF FILE: name ---` and a blank line — is among them,
and so that block appears in the payload before the typed input text. -/
theorem text_file_block_prepended (settings : Settings) (s : AppState)
    (f : FileData) (hproc : s.conversationState ≠ .PROCESSING)
    (hmem : f ∈ s.uploadedFiles)
    (htype : strStarts f.type "text/" = true)
    (hok : ∀ g ∈ s.uploadedFiles, isUnsupportedFile g = false)
    (hmode : s.chatMode ≠ .image) :
    ∃ req, (sendStart settings s).2 = some req ∧
      req.contents.text
        = String.join ((textBlocksOf s.uploadedFiles).reverse) ++ s.inputText ∧
      mkTextFileBlock f.name f.content ∈ textBlocksOf s.uploadedFiles ∧
      ∃ pre mid, req.contents.text
        = pre ++ (mkTextFileBlock f.name f.content ++ (mid ++ s.inputText)) := by
  have hne : s.uploadedFiles ≠ [] := by
    intro h
    rw [h] at hmem
    simp at hmem
  have hU : (classifyFiles s.inputText s.uploadedFiles).2.2 = [] := by
    rw [classifyFiles_unsupported]
    exact unsupportedNames_eq_nil_iff.mpr hok
  have hT : (classifyFiles s.inputText s.uploadedFiles).1
      = (textBlocksOf s.uploadedFiles).reverse ++ [s.inputText] :=
    classifyFiles_textParts s.inputText s.uploadedFiles
  have hjoin : String.join ((textBlocksOf s.uploadedFiles).reverse ++ [s.inputText])
      = String.join ((textBlocksOf s.uploadedFiles).reverse) ++ s.inputText := by
    rw [string_join_append]
    rfl
  have hmemblock : mkTextFileBlock f.name f.content ∈ textBlocksOf s.uploadedFiles := by
    have hft : isTextFile f = true := by
      simp [isTextFile, image_mime_not_text htype, htype]
    exact List.mem_map.mpr ⟨f, List.mem_filter.mpr ⟨hmem, hft⟩, rfl⟩
  have hreq : (sendStart settings s).2
      = some (buildRequest settings s.chatMode s.inputText
          (String.join ((textBlocksOf s.uploadedFiles).reverse) ++ s.inputText)
          (classifyFiles s.inputText s.uploadedFiles).2.1) := by
    cases hcm : s.chatMode with
    | image => exact absurd hcm hmode
    | search => simp [sendStart, hproc, hne, hU, hT, hcm, hjoin]
    | reasoning => simp [sendStart, hproc, hne, hU, hT, hcm, hjoin]
    | default => simp [sendStart, hproc, hne, hU, hT, hcm, hjoin]
  refine ⟨_, hreq, ?_, hmemblock, ?_⟩
  · rw [buildRequest_contents_text settings s.chatMode s.inputText _ _ hmode]
  · obtain ⟨l1, l2, hsplit⟩ := List.append_of_mem (List.mem_reverse.mpr hmemblock)
    refine ⟨String.join l1, String.join l2, ?_⟩
    rw [buildRequest_contents_text settings s.chatMode s.inputText _ _ hmode,
      hsplit, string_join_append,
      show String.join (mkTextFileBlock f.name f.content :: l2)
          = mkTextFileBlock f.name f.content ++ String.join l2 from
        foldl_append_eq l2 (mkTextFileBlock f.name f.content)]
    simp [String.append_assoc]

/-- Witness for the amended C6: a concrete send attaching a text file and
an image file still dispatches a payload with the block before the typed
text. -/
theorem text_file_block_prepended_witness :
    ∃ req, (sendStart defaultSettings
        { transcript := []
          conversationState := .IDLE
          chatMode := .default
          inputText := "hi"
          uploadedFiles := [⟨"a.txt", "text/plain", "hello", ""⟩,
            ⟨"p.png", "image/png", "", "QUJD"⟩]
          isKeySelected := true }).2 = some req ∧
      req.contents.text
        = String.join ((textBlocksOf [⟨"a.txt", "text/plain", "hello", ""⟩,
            ⟨"p.png", "image/png", "", "QUJD"⟩]).reverse) ++ "hi" ∧
      mkTextFileBlock "a.txt" "hello"
        ∈ textBlocksOf [⟨"a.txt", "text/plain", "hello", ""⟩,
            ⟨"p.png", "image/png", "", "QUJD"⟩] ∧
      ∃ pre mid, req.contents.text
        = pre ++ (mkTextFileBlock "a.txt" "hello" ++ (mid ++ "hi")) :=
  text_file_block_prepended defaultSettings
    { transcript := []
      conversationState := .IDLE
      chatMode := .default
      inputText := "hi"
      uploadedFiles := [⟨"a.txt", "text/plain", "hello", ""⟩,
        ⟨"p.png", "image/png", "", "QUJD"⟩]
      isKeySelected := true }
    ⟨"a.txt", "text/plain", "hello", ""⟩
    (by decide) (by decide) (by decide) (by decide) (by decide)

/-- C10. In image mode the dispatched request carries only the snapshot of
the typed input as a single text part, whatever files are attached (their
image parts and text blocks are built but discarded), while an
unsupported attached file still aborts the send before any call. -/
theorem image_mode_request_ignores_files :
    (∀ (settings : Settings) (s : AppState),
        s.chatMode = .image →
        s.conversationState ≠ .PROCESSING →
        ¬(jsTrim s.inputText = "" ∧ s.uploadedFiles = []) →
        (∀ f ∈ s.uploadedFiles, isUnsupportedFile f = false) →
        (sendStart settings s).2
          = some { model := "gemini-2.5-flash-image"
                   contents := .withParts s.inputText []
                   imageOnlyModality := true }) ∧
    (∀ (settings : Settings) (s : AppState),
        s.chatMode = .image →
        s.conversationState ≠ .PROCESSING →
        (∃ f ∈ s.uploadedFiles, isUnsupportedFile f = true) →
        (sendStart settings s).2 = none) := by
  constructor
  · intro settings s hmode hproc hguard hok
    have hU : unsupportedNames s.uploadedFiles = [] :=
      unsupportedNames_eq_nil_iff.mpr hok
    have hg : ¬((jsTrim s.inputText = "" ∧ s.uploadedFiles = []) ∨
        s.conversationState = .PROCESSING) := by
      rintro (h | h)
      · exact hguard h
      · exact hproc h
    simp [sendStart, hg, classifyFiles_unsupported, hU, hmode, buildRequest]
  · intro settings s _ hproc hbad
    obtain ⟨f, hf, hfu⟩ := hbad
    have hne : s.uploadedFiles ≠ [] := by
      intro h
      rw [h] at hf
      simp at hf
    have hnames : unsupportedNames s.uploadedFiles ≠ [] := by
      intro h
      have := unsupportedNames_eq_nil_iff.mp h f hf
      simp [this] at hfu
    rw [sendStart_unsupported_eq settings s hproc hne hnames]

/-- Witness for C10: an image-mode send with one attached image file
dispatches a request mentioning only the typed text. -/
theorem image_mode_request_ignores_files_witness :
    (sendStart defaultSettings
        { transcript := []
          conversationState := .IDLE
          chatMode := .image
          inputText := "a cat"
          uploadedFiles := [⟨"p.png", "image/png", "", "QUJD"⟩]
          isKeySelected := true }).2
      = some { model := "gemini-2.5-flash-image"
               contents := .withParts "a cat" []
               imageOnlyModality := true } :=
  image_mode_request_ignores_files.1 defaultSettings
    { transcript := []
      conversationState := .IDLE
      chatMode := .image
      inputText := "a cat"
      uploadedFiles := [⟨"p.png", "image/png", "", "QUJD"⟩]
      isKeySelected := true }
    rfl (by decide) (by decide) (by decide)

/-- Finalized assistant entries are never placeholders. -/
theorem successEntry_not_typing (mode : ChatMode) (r : GenResponse) :
    (successEntry mode r).isTyping = false := by
  cases mode with
  | search => rfl
  | reasoning => rfl
  | default => rfl
  | image => rcases h : r.firstImagePart with _ | p <;> simp [successEntry, h]

/-- Error entries are never placeholders. -/
theorem failureEntry_not_typing (msg : String) :
    (failureEntry msg).isTyping = false := by
  unfold failureEntry
  split <;> rfl

/-- A state whose transcript holds no placeholder at all satisfies the
invariant, whatever its conversation state. -/
theorem sessionInv_of_no_typing {s : AppState}
    (h : ∀ x ∈ s.transcript, x.isTyping = false) : SessionInv s := by
  refine ⟨fun x hx => h x (List.dropLast_subset s.transcript hx), ?_⟩
  rintro ⟨x, hx, ht⟩
  exact absurd ht (by simp [h x hx])

/-- Replacing the tail by a non-placeholder keeps a placeholder-free-body
transcript placeholder-free. -/
theorem replaceLast_no_typing {s : AppState} (hinv : SessionInv s)
    (e : TranscriptEntry) (he : e.isTyping = false) :
    ∀ x ∈ replaceLast s.transcript e, x.isTyping = false := by
  intro x hx
  rcases List.mem_append.mp hx with hx | hx
  · exact hinv.1 x hx
  · rw [List.mem_singleton.mp hx]
    exact he

/-- Completing a send always returns to `IDLE`. -/
theorem sendComplete_idle (s : AppState) (o : ApiOutcome) :
    (sendComplete s o).conversationState = .IDLE := by
  cases o with
  | success r => rfl
  | failure msg => by_cases h : isKeyErrorMessage msg <;> simp [sendComplete, h]

/-- The transcript invariant survives completing a send. -/
theorem sessionInv_sendComplete {s : AppState} (o : ApiOutcome)
    (h : SessionInv s) : SessionInv (sendComplete s o) := by
  cases o with
  | success r =>
      apply sessionInv_of_no_typing
      intro x hx
      exact replaceLast_no_typing h _ (successEntry_not_typing s.chatMode r) x hx
  | failure msg =>
      by_cases hk : isKeyErrorMessage msg = true
      · apply sessionInv_of_no_typing
        intro x hx
        simp only [sendComplete, hk, if_true] at hx
        exact replaceLast_no_typing h _ (failureEntry_not_typing msg) x hx
      · apply sessionInv_of_no_typing
        intro x hx
        simp only [sendComplete, hk, if_false, Bool.false_eq_true] at hx
        exact replaceLast_no_typing h _ (failureEntry_not_typing msg) x hx

/-- The transcript invariant survives starting a send. -/
theorem sessionInv_sendStart {settings : Settings} {s s' : AppState}
    {oreq : Option ApiRequest} (h : SessionInv s)
    (heq : sendStart settings s = (s', oreq)) : SessionInv s' := by
  by_cases hg : (jsTrim s.inputText = "" ∧ s.uploadedFiles = []) ∨
      s.conversationState = .PROCESSING
  · simp only [sendStart] at heq
    rw [if_pos hg] at heq
    injection heq with h1 _
    subst h1
    exact h
  · have hproc : s.conversationState ≠ .PROCESSING := fun hp => hg (Or.inr hp)
    have hnt : ∀ x ∈ s.transcript, x.isTyping = false := by
      intro x hx
      by_contra hxx
      exact hproc (h.2 ⟨x, hx, by simpa using hxx⟩)
    simp only [sendStart] at heq
    rw [if_neg hg] at heq
    by_cases hu : (classifyFiles s.inputText s.uploadedFiles).2.2 ≠ []
    · rw [if_pos hu] at heq
      injection heq with h1 _
      subst h1
      apply sessionInv_of_no_typing
      intro x hx
      simp only [replaceLast, List.dropLast_concat] at hx
      rcases List.mem_append.mp hx with hx | hx
      · rcases List.mem_append.mp hx with hx | hx
        · exact hnt x hx
        · rw [List.mem_singleton.mp hx]; rfl
      · rw [List.mem_singleton.mp hx]; rfl
    · rw [if_neg hu] at heq
      cases hcm : s.chatMode with
      | image =>
          simp only [hcm] at heq
          injection heq with h1 _
          subst h1
          apply sessionInv_of_no_typing
          intro x hx
          simp only [replaceLast, List.dropLast_concat] at hx
          rcases List.mem_append.mp hx with hx | hx
          · rcases List.mem_append.mp hx with hx | hx
            · exact hnt x hx
            · rw [List.mem_singleton.mp hx]; rfl
          · rw [List.mem_singleton.mp hx]; rfl
      | search =>
          simp only [hcm] at heq
          injection heq with h1 _
          subst h1
          refine ⟨?_, fun _ => rfl⟩
          intro x hx
          rw [List.dropLast_concat] at hx
          rcases List.mem_append.mp hx with hx | hx
          · exact hnt x hx
          · rw [List.mem_singleton.mp hx]; rfl
      | reasoning =>
          simp only [hcm] at heq
          injection heq with h1 _
          subst h1
          refine ⟨?_, fun _ => rfl⟩
          intro x hx
          rw [List.dropLast_concat] at hx
          rcases List.mem_append.mp hx with hx | hx
          · exact hnt x hx
          · rw [List.mem_singleton.mp hx]; rfl
      | default =>
          simp only [hcm] at heq
          injection heq with h1 _
          subst h1
          refine ⟨?_, fun _ => rfl⟩
          intro x hx
          rw [List.dropLast_concat] at hx
          rcases List.mem_append.mp hx with hx | hx
          · exact hnt x hx
          · rw [List.mem_singleton.mp hx]; rfl

/-- A send that dispatched a request left the session `PROCESSING`. -/
theorem sendStart_some_processing {settings : Settings} {s s' : AppState}
    {req : ApiRequest} (heq : sendStart settings s = (s', some req)) :
    s'.conversationState = .PROCESSING := by
  by_cases hg : (jsTrim s.inputText = "" ∧ s.uploadedFiles = []) ∨
      s.conversationState = .PROCESSING
  · simp only [sendStart] at heq
    rw [if_pos hg] at heq
    injection heq with _ h2
    simp at h2
  · simp only [sendStart] at heq
    rw [if_neg hg] at heq
    by_cases hu : (classifyFiles s.inputText s.uploadedFiles).2.2 ≠ []
    · rw [if_pos hu] at heq
      injection heq with _ h2
      simp at h2
    · rw [if_neg hu] at heq
      cases hcm : s.chatMode <;> simp only [hcm] at heq <;>
        (injection heq with h1 _; subst h1; rfl)

/-- A send that dispatched nothing never leaves the session `PROCESSING`
when it was not already so. -/
theorem sendStart_none_state {settings : Settings} {s s' : AppState}
    (hproc : s.conversationState ≠ .PROCESSING)
    (heq : sendStart settings s = (s', none)) :
    s'.conversationState ≠ .PROCESSING := by
  by_cases hg : (jsTrim s.inputText = "" ∧ s.uploadedFiles = []) ∨
      s.conversationState = .PROCESSING
  · simp only [sendStart] at heq
    rw [if_pos hg] at heq
    injection heq with h1 _
    subst h1
    exact hproc
  · simp only [sendStart] at heq
    rw [if_neg hg] at heq
    by_cases hu : (classifyFiles s.inputText s.uploadedFiles).2.2 ≠ []
    · rw [if_pos hu] at heq
      injection heq with h1 _
      subst h1
      simp
    · rw [if_neg hu] at heq
      cases hcm : s.chatMode <;> simp only [hcm] at heq <;>
        (injection heq with _ h2; simp at h2)

/-- Every reachable session state satisfies the transcript invariant. -/
theorem reachable_inv {s : AppState} (h : Reachable s) : SessionInv s := by
  induction h with
  | init => exact ⟨by simp [initState], by simp [initState]⟩
  | clearHistory _ ih => exact ⟨by simp, by simp⟩
  | setInput t _ ih => exact ih
  | addFiles fs _ ih => exact ih
  | removeFile f _ ih => exact ih
  | setMode m _ ih => exact ih
  | sendNoCall settings _ heq ih => exact sessionInv_sendStart ih heq
  | sendInFlight settings req _ heq ih => exact sessionInv_sendStart ih heq
  | sendFinish o _ _ ih => exact sessionInv_sendComplete o ih

/-- Under the invariant, a transcript holds at most one placeholder. -/
theorem typingCount_le_one {s : AppState} (h : SessionInv s) :
    typingCount s.transcript ≤ 1 := by
  rcases List.eq_nil_or_concat' s.transcript with hnil | ⟨l, a, hl⟩
  · simp [typingCount, hnil]
  · have h1 := h.1
    rw [hl, List.dropLast_concat] at h1
    have hfil : l.filter (·.isTyping) = [] :=
      List.filter_eq_nil_iff.mpr fun x hx => by simp [h1 x hx]
    rw [typingCount, hl, List.filter_append, hfil]
    cases hb : a.isTyping <;> simp [List.filter, hb]

/-- Under the invariant, away from `PROCESSING` the transcript holds no
placeholder at all. -/
theorem typingCount_eq_zero {s : AppState} (h : SessionInv s)
    (hproc : s.conversationState ≠ .PROCESSING) :
    typingCount s.transcript = 0 := by
  have hnt : ∀ x ∈ s.transcript, x.isTyping = false := by
    intro x hx
    by_contra hxx
    exact hproc (h.2 ⟨x, hx, by simpa using hxx⟩)
  rw [typingCount, List.length_eq_zero]
  exact List.filter_eq_nil_iff.mpr fun x hx => by simp [hnt x hx]

/-- C1. In every reachable session state at most one placeholder exists,
only at the transcript's tail and only while the session is `PROCESSING`;
and after any completed send, whether the call succeeded, failed, or was
never dispatched, zero placeholders remain. -/
theorem placeholder_invariant :
    (∀ s : AppState, Reachable s →
        typingCount s.transcript ≤ 1 ∧ SessionInv s) ∧
    (∀ (settings : Settings) (s s' : AppState) (req : ApiRequest)
        (o : ApiOutcome), Reachable s →
        sendStart settings s = (s', some req) →
        typingCount (sendComplete s' o).transcript = 0) ∧
    (∀ (settings : Settings) (s s' : AppState), Reachable s →
        s.conversationState ≠ .PROCESSING →
        sendStart settings s = (s', none) →
        typingCount s'.transcript = 0) := by
  refine ⟨fun s h => ⟨typingCount_le_one (reachable_inv h), reachable_inv h⟩,
    ?_, ?_⟩
  · intro settings s s' req o h heq
    have hs' : Reachable s' := .sendInFlight settings req h heq
    have hf : Reachable (sendComplete s' o) :=
      .sendFinish o hs' (sendStart_some_processing heq)
    exact typingCount_eq_zero (reachable_inv hf)
      (by rw [sendComplete_idle]; intro hc; cases hc)
  · intro settings s s' h hproc heq
    have hs' : Reachable s' := .sendNoCall settings h heq
    exact typingCount_eq_zero (reachable_inv hs')
      (sendStart_none_state hproc heq)

/-- Witness for C1: the initial state satisfies the invariant, a concrete
dispatched send ends with zero placeholders after a failure, and a concrete
rejected send leaves zero placeholders. -/
theorem placeholder_invariant_witness :
    (typingCount initState.transcript ≤ 1 ∧ SessionInv initState) ∧
    typingCount (sendComplete
        { transcript := [{ source := .user, text := "hi", files := some [] },
            typingEntry]
          conversationState := .PROCESSING
          chatMode := .reasoning
          inputText := ""
          uploadedFiles := []
          isKeySelected := true } (.failure "boom")).transcript = 0 ∧
    typingCount initState.transcript = 0 := by
  refine ⟨placeholder_invariant.1 initState .init, ?_, ?_⟩
  · exact placeholder_invariant.2.1 defaultSettings
      { initState with inputText := "hi", chatMode := .reasoning }
      _ { model := "gemini-2.5-pro", contents := .plain "hi" } (.failure "boom")
      (Reachable.setMode .reasoning (Reachable.setInput "hi" Reachable.init))
      (by decide)
  · exact placeholder_invariant.2.2 defaultSettings initState initState
      Reachable.init (by decide) (by decide)

end ChatApp
